import Mathlib

/-!
Formal model of the currency-conversion service.

Shallow embedding of:
- `src/lib/validation.ts` (supported currency lists),
- `src/lib/cache.ts` (the lru-cache instance configured with
  `ttl = 5 min`, `updateAgeOnGet: true`, `allowStale: false`),
- `src/services/conversionService.ts` (`getExchangeRates`, `convertCurrency`),
- `src/app.ts` (the two express-rate-limit middlewares),
- `src/lib/auth.ts` (`extractUserId`) and the limiters' `keyGenerator`.

Numbers are idealised: JavaScript floating-point values are modelled by an
exact rational together with explicit NaN and signed-infinity values
(`JsNum`), so rate arithmetic is exact where the code computes finite
values.  Time is modelled in milliseconds as `Nat`.
-/

/-- `SUPPORTED_FIAT_CURRENCIES` from `src/lib/validation.ts`. -/
def SUPPORTED_FIAT_CURRENCIES : List String := ["USD", "EUR"]

/-- `SUPPORTED_CRYPTOCURRENCIES` from `src/lib/validation.ts`. -/
def SUPPORTED_CRYPTOCURRENCIES : List String := ["BTC", "ETH"]

/-- `SUPPORTED_CURRENCIES` from `src/lib/validation.ts`. -/
def SUPPORTED_CURRENCIES : List String :=
  SUPPORTED_FIAT_CURRENCIES ++ SUPPORTED_CRYPTOCURRENCIES

/-- Idealised JavaScript number: NaN, signed infinity (the `Bool` is the
sign, `true` = positive), or an exact rational standing for a finite double. -/
inductive JsNum where
  | nan : JsNum
  | inf : Bool → JsNum
  | num : ℚ → JsNum
deriving DecidableEq

/-- The `isNaN` test applied by `convertCurrency` to parsed rates. -/
def jsIsNaN : JsNum → Bool
  | .nan => true
  | _ => false

/-- JavaScript multiplication on the idealised numbers. -/
def jsMul : JsNum → JsNum → JsNum
  | .nan, _ => .nan
  | _, .nan => .nan
  | .inf s, .inf t => .inf (s == t)
  | .inf s, .num q => if q = 0 then .nan else .inf (s == decide (0 < q))
  | .num q, .inf s => if q = 0 then .nan else .inf (s == decide (0 < q))
  | .num a, .num b => .num (a * b)

/-- JavaScript division on the idealised numbers (zero stands for both
signed zeros). -/
def jsDiv : JsNum → JsNum → JsNum
  | .nan, _ => .nan
  | _, .nan => .nan
  | .inf _, .inf _ => .nan
  | .inf s, .num q => .inf (s == decide (0 ≤ q))
  | .num _, .inf _ => .num 0
  | .num a, .num b =>
      if b = 0 then (if a = 0 then .nan else .inf (decide (0 < a)))
      else .num (a / b)

/-- Numeric value of a digit run (used by the `parseFloat` model). -/
def digitsToNat (cs : List Char) : Nat :=
  cs.foldl (fun a c => a * 10 + (c.toNat - 48)) 0

/-- Exponent part of a JavaScript decimal literal: optional sign then
digits; an exponent with no digits is ignored (contributes 0). -/
def parseExp (cs : List Char) : ℤ :=
  let (eneg, cs1) :=
    match cs with
    | '-' :: rest => (true, rest)
    | '+' :: rest => (false, rest)
    | _ => (false, cs)
  let ds := cs1.takeWhile Char.isDigit
  if ds.isEmpty then 0
  else if eneg then -(digitsToNat ds : ℤ) else (digitsToNat ds : ℤ)

/-- Whitespace skipped by `parseFloat` (the common ASCII whitespace
characters; exotic Unicode spaces are irrelevant to the claims). -/
def jsWhitespace (c : Char) : Bool :=
  c == ' ' || c == '\t' || c == '\n' || c == '\r' || c == '\x0b' || c == '\x0c'

/-- Model of JavaScript `parseFloat`: skip leading whitespace, optional
sign, then the longest decimal-literal prefix (`Infinity`, digits,
optional fraction, optional exponent); NaN when no digits can be read. -/
def parseFloat (s : String) : JsNum :=
  let cs := s.data.dropWhile jsWhitespace
  let (neg, cs1) :=
    match cs with
    | '-' :: rest => (true, rest)
    | '+' :: rest => (false, rest)
    | _ => (false, cs)
  if "Infinity".data.isPrefixOf cs1 then .inf (!neg)
  else
    let intPart := cs1.takeWhile Char.isDigit
    let cs2 := cs1.dropWhile Char.isDigit
    let (fracPart, cs3) :=
      match cs2 with
      | '.' :: rest => (rest.takeWhile Char.isDigit, rest.dropWhile Char.isDigit)
      | _ => ([], cs2)
    if intPart.isEmpty && fracPart.isEmpty then .nan
    else
      let expo : ℤ :=
        match cs3 with
        | 'e' :: rest => parseExp rest
        | 'E' :: rest => parseExp rest
        | _ => 0
      let mantissa : ℚ :=
        (digitsToNat intPart : ℚ) + (digitsToNat fracPart : ℚ) / (10 : ℚ) ^ fracPart.length
      let v : ℚ := mantissa * (10 : ℚ) ^ expo
      .num (if neg then -v else v)

/-- `EXCHANGE_RATES_CACHE_TTL` from `src/services/conversionService.ts`
(5 minutes in milliseconds). -/
def EXCHANGE_RATES_CACHE_TTL : Nat := 5 * 60 * 1000

/-- The single cache slot used under the `exchange_rates` key: the stored
rate mapping, the time the entry's age was last set, and its TTL. -/
structure CacheEntry where
  value : List (String × String)
  start : Nat
  ttl : Nat
deriving DecidableEq

/-- Model of `cache.get` for the lru-cache instance of `src/lib/cache.ts`
(options `updateAgeOnGet: true`, `allowStale: false`): an entry is stale
when `now - start > ttl`; a stale entry is deleted by the read and a miss
is reported; a live entry is served and its age is reset to `now`
(`updateAgeOnGet`).  Returns the served value and the cache state after
the read. -/
def cacheGet (c : Option CacheEntry) (now : Nat) :
    Option (List (String × String)) × Option CacheEntry :=
  match c with
  | none => (none, none)
  | some e =>
      if e.ttl < now - e.start then (none, none)
      else (some e.value, some ⟨e.value, now, e.ttl⟩)

/-- Model of `cache.set(key, value, { ttl })`: replaces the slot with a
fresh entry whose age starts at `now`. -/
def cacheSet (value : List (String × String)) (now ttl : Nat) : Option CacheEntry :=
  some ⟨value, now, ttl⟩

/-- Outcome of one upstream call to the exchange-rate API: the raw
currency-to-rate-string mapping on success, or a failure. -/
inductive FetchOutcome where
  | ok : List (String × String) → FetchOutcome
  | fail : FetchOutcome

/-- Result of one `getExchangeRates` call: the returned rates or the
thrown error message, the cache state after the call, and how many
upstream fetches were performed. -/
structure RatesOutcome where
  result : Except String (List (String × String))
  cache : Option CacheEntry
  fetches : Nat

/-- Model of `ConversionService.getExchangeRates`: serve from cache when
the read hits; otherwise fetch, filter the raw rates to the supported
currencies (dropping absent or empty entries, mirroring the JavaScript
truthiness test `if (rates[currency])`), store the filtered set with the
fixed TTL, and return it; a failed fetch becomes the
`Failed to fetch exchange rates` error and stores nothing. -/
def getExchangeRates (cache : Option CacheEntry) (now : Nat)
    (fetch : FetchOutcome) : RatesOutcome :=
  match cacheGet cache now with
  | (some cachedRates, c1) => ⟨.ok cachedRates, c1, 0⟩
  | (none, c1) =>
      match fetch with
      | .fail => ⟨.error "Failed to fetch exchange rates", c1, 1⟩
      | .ok raw =>
          let filteredRates := SUPPORTED_CURRENCIES.filterMap fun currency =>
            match raw.lookup currency with
            | some v => if v != "" then some (currency, v) else none
            | none => none
          ⟨.ok filteredRates, cacheSet filteredRates now EXCHANGE_RATES_CACHE_TTL, 1⟩

/-- The record handed to `prisma.conversion.create` (persistence
collaborator). -/
structure ConversionRecord where
  userId : String
  fromCurrency : String
  toCurrency : String
  amount : ℚ
  result : JsNum
  rate : JsNum
deriving DecidableEq

/-- The payload returned by `convertCurrency` (`from` and `to` are spelled
`frm` and `toCur`, both being reserved or ambiguous in Lean). -/
structure ConversionResult where
  frm : String
  toCur : String
  amount : ℚ
  result : JsNum
  rate : JsNum
deriving DecidableEq

/-- JavaScript truthiness of an object-property read producing a string:
absent or empty-string values are falsy. -/
def truthyOpt : Option String → Bool
  | none => false
  | some s => s != ""

/-- Outcome of one `convertCurrency` call: the returned payload or the
thrown error message, the cache state after the call, the number of
upstream fetches performed, and the persistence requests issued. -/
structure ConvertOutcome where
  result : Except String ConversionResult
  cache : Option CacheEntry
  fetches : Nat
  persists : List ConversionRecord

/-- Model of `ConversionService.convertCurrency`: validate the currency
codes against the static list, obtain rates, check presence of both
rates, parse them with `parseFloat` rejecting NaN, compute
`result = (amount * toRate) / fromRate` and `rate = toRate / fromRate`,
then request persistence; a persistence failure rethrows its error.  The
`persist` argument is the outcome of the persistence collaborator. -/
def convertCurrency (frm toCur : String) (amount : ℚ) (userId : String)
    (cache : Option CacheEntry) (now : Nat) (fetch : FetchOutcome)
    (persist : Except String Unit) : ConvertOutcome :=
  if !(SUPPORTED_CURRENCIES.contains frm) || !(SUPPORTED_CURRENCIES.contains toCur) then
    ⟨.error "Invalid currency code", cache, 0, []⟩
  else
    match getExchangeRates cache now fetch with
    | ⟨.error e, c1, n⟩ => ⟨.error e, c1, n, []⟩
    | ⟨.ok rates, c1, n⟩ =>
        if !(truthyOpt (rates.lookup frm)) || !(truthyOpt (rates.lookup toCur)) then
          ⟨.error "Exchange rate not available for the selected currency", c1, n, []⟩
        else
          let fromRate := parseFloat ((rates.lookup frm).getD "")
          let toRate := parseFloat ((rates.lookup toCur).getD "")
          if jsIsNaN fromRate || jsIsNaN toRate then
            ⟨.error "Invalid exchange rate", c1, n, []⟩
          else
            let result := jsDiv (jsMul (.num amount) toRate) fromRate
            let rate := jsDiv toRate fromRate
            let record0 : ConversionRecord := ⟨userId, frm, toCur, amount, result, rate⟩
            match persist with
            | .error m => ⟨.error m, c1, n, [record0]⟩
            | .ok _ => ⟨.ok ⟨frm, toCur, amount, result, rate⟩, c1, n, [record0]⟩

/-- `windowMs` of both rate limiters in `src/app.ts` (24 hours). -/
def windowMs : Nat := 24 * 60 * 60 * 1000

/-- Per-key state kept by express-rate-limit's memory store: the hit count
and the absolute time at which the window resets. -/
structure Client where
  totalHits : Nat
  resetTime : Nat
deriving DecidableEq

/-- A rate-limit memory store: association list from key to client state. -/
def Store := List (String × Client)

/-- Lookup in a rate-limit store. -/
def storeGet : Store → String → Option Client
  | [], _ => none
  | (k1, v1) :: rest, k => if k1 = k then some v1 else storeGet rest k

/-- Update (or insert) one key of a rate-limit store. -/
def storeSet : Store → String → Client → Store
  | [], k, v => [(k, v)]
  | (k1, v1) :: rest, k, v =>
      if k1 = k then (k, v) :: rest else (k1, v1) :: storeSet rest k v

/-- Model of the express-rate-limit memory store's `increment`: a missing
or expired client is (re)created with a fresh window ending at
`now + w`, then its hit count is incremented; returns the client state
the middleware sees and the updated store. -/
def increment (st : Store) (k : String) (now w : Nat) : Client × Store :=
  let c0 : Client :=
    match storeGet st k with
    | none => ⟨0, now + w⟩
    | some c => if c.resetTime ≤ now then ⟨0, now + w⟩ else c
  let c1 : Client := ⟨c0.totalHits + 1, c0.resetTime⟩
  (c1, storeSet st k c1)

/-- The `skip` predicate of `weekdayLimit` in `src/app.ts`: skip when the
current day-of-week is Sunday (0) or Saturday (6). -/
def weekdaySkip (day : Fin 7) : Bool :=
  day.val == 0 || day.val == 6

/-- The `skip` predicate of `weekendLimit` in `src/app.ts`: skip on
weekdays. -/
def weekendSkip (day : Fin 7) : Bool :=
  day.val != 0 && day.val != 6

/-- State of the application's admission control: one memory store per
limiter (`weekdayLimit` and `weekendLimit` each own a store). -/
structure AppState where
  weekdayStore : Store
  weekendStore : Store

/-- One request through the middleware chain of `src/app.ts`:
`weekdayLimit` runs first (skipping on weekends, otherwise counting
against 100 and stopping the chain on denial), then `weekendLimit`
(skipping on weekdays, otherwise counting against 200).  `day` is the
day-of-week at the admission moment, `key` the quota identity.  Returns
whether the request is admitted and the new state. -/
def appAdmit (st : AppState) (now : Nat) (day : Fin 7) (key : String) :
    Bool × AppState :=
  if weekdaySkip day then
    if weekendSkip day then (true, st)
    else
      let (c, s1) := increment st.weekendStore key now windowMs
      (decide (c.totalHits ≤ 200), ⟨st.weekdayStore, s1⟩)
  else
    let (c, s1) := increment st.weekdayStore key now windowMs
    if c.totalHits ≤ 100 then
      if weekendSkip day then (true, ⟨s1, st.weekendStore⟩)
      else
        let (c2, s2) := increment st.weekendStore key now windowMs
        (decide (c2.totalHits ≤ 200), ⟨s1, s2⟩)
    else (false, ⟨s1, st.weekendStore⟩)

/-- Run a sequence of admission checks for one identity; each request is a
pair of its arrival time and its day-of-week.  Returns the list of
decisions and the final state. -/
def admitSeq (st : AppState) (key : String) :
    List (Nat × Fin 7) → List Bool × AppState
  | [] => ([], st)
  | (now, day) :: rest =>
      let (b, st1) := appAdmit st now day key
      let (bs, st2) := admitSeq st1 key rest
      (b :: bs, st2)

/-- The fresh admission-control state (no identity seen by either
limiter). -/
def freshApp : AppState := ⟨[], []⟩

/-- Single quota window of the specification's QuotaTracker. -/
structure SpecWindow where
  count : Nat
  start : Nat
deriving DecidableEq

/-- QuotaTracker `admit` as the specification words it (spec 4.3): one
window per identity; reset when 24h have elapsed; cap decided by the
current day-of-week (weekend 200, weekday 100); deny without increment
when the accumulated count has reached the cap.  This definition follows
the spec's words and serves as the comparison point for the
single-window refinement claim about the code. -/
def specAdmit (w : Option SpecWindow) (now : Nat) (day : Fin 7) :
    Bool × SpecWindow :=
  let w0 : SpecWindow :=
    match w with
    | none => ⟨0, now⟩
    | some w1 => if windowMs ≤ now - w1.start then ⟨0, now⟩ else w1
  let cap : Nat := if day.val = 0 ∨ day.val = 6 then 200 else 100
  if cap ≤ w0.count then (false, w0)
  else (true, ⟨w0.count + 1, w0.start⟩)

/-- Run a sequence of admission checks through the specification's
single-window QuotaTracker for one identity. -/
def specAdmitSeq (w : Option SpecWindow) :
    List (Nat × Fin 7) → List Bool × Option SpecWindow
  | [] => ([], w)
  | (now, day) :: rest =>
      let (b, w1) := specAdmit w now day
      let (bs, w2) := specAdmitSeq (some w1) rest
      (b :: bs, w2)

/-- Header values as seen by `extractUserId`: the `authorization` entry of
`req.headers` is a string, an array of strings, or absent (`Option`). -/
inductive HeaderValue where
  | str : String → HeaderValue
  | strs : List String → HeaderValue
deriving DecidableEq

/-- JavaScript `String.prototype.startsWith`, modelled at the character
level. -/
def jsStartsWith (s p : String) : Bool :=
  decide (s.data.take p.data.length = p.data)

/-- JavaScript `String.prototype.split` with a single-character separator
(no limit): splits at every occurrence of the separator, keeping empty
chunks. -/
def splitChars (sep : Char) : List Char → List (List Char)
  | [] => [[]]
  | c :: rest =>
      let r := splitChars sep rest
      if c = sep then [] :: r
      else
        match r with
        | [] => [[c]]
        | h :: t => (c :: h) :: t

/-- Model of `extractUserId` from `src/lib/auth.ts`: `null` when the
authorization header is absent, not a string, or does not start with
`Bearer `; otherwise the second chunk of the header split at spaces
(which may be the empty string). -/
def extractUserId (authorization : Option HeaderValue) : Option String :=
  match authorization with
  | some (.str s) =>
      if jsStartsWith s "Bearer " then
        some ⟨(splitChars ' ' s.data).getD 1 []⟩
      else none
  | _ => none

/-- The limiters' `keyGenerator` from `src/app.ts`:
`extractUserId(req.headers) || 'anonymous'` — any falsy result (`null` or
the empty string) falls back to the constant `anonymous` identity. -/
def keyGenerator (authorization : Option HeaderValue) : String :=
  match extractUserId authorization with
  | none => "anonymous"
  | some s => if s = "" then "anonymous" else s

/-! ## Helper lemmas -/

lemma parseFloat_empty : parseFloat "" = .nan := by with_unfolding_all rfl

lemma parseFloat_num_ne_empty {s : String} {q : ℚ} (h : parseFloat s = .num q) :
    s ≠ "" := by
  intro e
  subst e
  rw [parseFloat_empty] at h
  cases h

lemma contains_eq_true_of_mem {s : String} (h : s ∈ SUPPORTED_CURRENCIES) :
    SUPPORTED_CURRENCIES.contains s = true := by
  simpa [List.contains] using h

/-! ## C6: unsupported currency codes are rejected up front -/

/-- C6: whenever `from` or `to` is outside the static supported-currency
list, `convertCurrency` fails with `Invalid currency code`, performs no
rate fetch, leaves the cache untouched, and issues no persistence
request. -/
theorem unsupportedCurrency_rejected (frm toCur : String) (amount : ℚ)
    (userId : String) (cache : Option CacheEntry) (now : Nat)
    (fetch : FetchOutcome) (persist : Except String Unit)
    (h : frm ∉ SUPPORTED_CURRENCIES ∨ toCur ∉ SUPPORTED_CURRENCIES) :
    convertCurrency frm toCur amount userId cache now fetch persist =
      ⟨.error "Invalid currency code", cache, 0, []⟩ := by
  rcases h with h | h <;>
    simp [convertCurrency, List.contains, h]

/-- Witness for C6 at the spec's own example input `convert('XYZ','EUR',100,'u1')`. -/
theorem unsupportedCurrency_rejected_witness :
    convertCurrency "XYZ" "EUR" 100 "u1" none 0 .fail (.ok ()) =
      ⟨.error "Invalid currency code", none, 0, []⟩ :=
  unsupportedCurrency_rejected "XYZ" "EUR" 100 "u1" none 0 .fail (.ok ())
    (Or.inl (by decide))

/-! ## C9: NaN rates are rejected before persistence -/

/-- C9: when both currencies are supported and both have (truthy) entries
in the returned rate set but either rate string parses to NaN,
`convertCurrency` fails with `Invalid exchange rate` and issues no
persistence request. -/
theorem invalidRate_rejected (frm toCur : String) (amount : ℚ)
    (userId : String) (cache : Option CacheEntry) (now : Nat)
    (fetch : FetchOutcome) (persist : Except String Unit)
    (rates : List (String × String)) (sf st : String)
    (hf : frm ∈ SUPPORTED_CURRENCIES) (ht : toCur ∈ SUPPORTED_CURRENCIES)
    (hr : (getExchangeRates cache now fetch).result = .ok rates)
    (hsf : rates.lookup frm = some sf) (hst : rates.lookup toCur = some st)
    (hsf0 : sf ≠ "") (hst0 : st ≠ "")
    (hnan : parseFloat sf = .nan ∨ parseFloat st = .nan) :
    (convertCurrency frm toCur amount userId cache now fetch persist).result =
        .error "Invalid exchange rate" ∧
    (convertCurrency frm toCur amount userId cache now fetch persist).persists = [] := by
  rcases hge : getExchangeRates cache now fetch with ⟨res, c1, n⟩
  rw [hge] at hr
  simp only at hr
  subst hr
  have h1 := contains_eq_true_of_mem hf
  have h2 := contains_eq_true_of_mem ht
  rcases hnan with hn | hn <;>
    simp [convertCurrency, hge, h1, h2, hf, ht, hsf, hst, truthyOpt, hsf0, hst0, hn, jsIsNaN]

/-- Witness for C9: a rate string `abc` parses to NaN and is rejected. -/
theorem invalidRate_rejected_witness :
    (convertCurrency "USD" "EUR" 100 "u1" none 0
        (.ok [("USD", "abc"), ("EUR", "2")]) (.ok ())).result =
        .error "Invalid exchange rate" ∧
    (convertCurrency "USD" "EUR" 100 "u1" none 0
        (.ok [("USD", "abc"), ("EUR", "2")]) (.ok ())).persists = [] :=
  invalidRate_rejected "USD" "EUR" 100 "u1" none 0
    (.ok [("USD", "abc"), ("EUR", "2")]) (.ok ())
    [("USD", "abc"), ("EUR", "2")] "abc" "2"
    (by decide) (by decide) (by rfl) (by rfl) (by rfl) (by decide) (by decide)
    (Or.inl (by with_unfolding_all rfl))

/-! ## C1: conversion arithmetic -/

/-- C1: for supported currencies whose rates are present in the returned
rate set and parse to finite values (with a nonzero source rate), and any
positive amount, `convertCurrency` returns the payload
`{from, to, amount, result, rate}` with
`result = (amount * toRate) / fromRate` and `rate = toRate / fromRate`;
moreover `(amount * toRate) / fromRate = amount * (toRate / fromRate)`,
so the output equals `amount * rate(to)/rate(from)` exactly. -/
theorem convertCurrency_correct (frm toCur : String) (amount : ℚ)
    (userId : String) (cache : Option CacheEntry) (now : Nat)
    (fetch : FetchOutcome) (rates : List (String × String)) (sf st : String)
    (rf rt : ℚ)
    (hf : frm ∈ SUPPORTED_CURRENCIES) (ht : toCur ∈ SUPPORTED_CURRENCIES)
    (hr : (getExchangeRates cache now fetch).result = .ok rates)
    (hsf : rates.lookup frm = some sf) (hst : rates.lookup toCur = some st)
    (hpf : parseFloat sf = .num rf) (hpt : parseFloat st = .num rt)
    (hrf : rf ≠ 0) (_ha : 0 < amount) :
    (convertCurrency frm toCur amount userId cache now fetch (.ok ())).result =
        .ok ⟨frm, toCur, amount, .num (amount * rt / rf), .num (rt / rf)⟩ ∧
    amount * rt / rf = amount * (rt / rf) := by
  rcases hge : getExchangeRates cache now fetch with ⟨res, c1, n⟩
  rw [hge] at hr
  simp only at hr
  subst hr
  have h1 := contains_eq_true_of_mem hf
  have h2 := contains_eq_true_of_mem ht
  have hsf0 := parseFloat_num_ne_empty hpf
  have hst0 := parseFloat_num_ne_empty hpt
  refine ⟨?_, mul_div_assoc amount rt rf⟩
  simp [convertCurrency, hge, h1, h2, hf, ht, hsf, hst, truthyOpt, hsf0, hst0,
    hpf, hpt, jsIsNaN, jsMul, jsDiv, hrf]

/-- Witness for C1 at the spec's example rates
`{USD: "1", EUR: "0.9234"}` converting 100 USD to EUR. -/
theorem convertCurrency_correct_witness :
    (convertCurrency "USD" "EUR" 100 "u1" none 0
        (.ok [("USD", "1"), ("EUR", "0.9234")]) (.ok ())).result =
        .ok ⟨"USD", "EUR", 100, .num (100 * (4617 / 5000) / 1),
          .num ((4617 / 5000) / 1)⟩ ∧
    (100 : ℚ) * (4617 / 5000) / 1 = 100 * ((4617 / 5000) / 1) :=
  convertCurrency_correct "USD" "EUR" 100 "u1" none 0
    (.ok [("USD", "1"), ("EUR", "0.9234")])
    [("USD", "1"), ("EUR", "0.9234")] "1" "0.9234" 1 (4617 / 5000)
    (by decide) (by decide) (by rfl) (by rfl) (by rfl)
    (by with_unfolding_all rfl) (by with_unfolding_all rfl)
    (by norm_num) (by norm_num)

/-! ## C7: persistence failures abort the conversion -/

/-- C7: a conversion is returned as successful only when the persistence
request succeeded, and whenever the computation would succeed but the
persistence collaborator fails, `convertCurrency` fails with exactly the
persistence error (it propagates to the caller) while the persistence
request was still issued. -/
theorem persistenceFailure_propagates (frm toCur : String) (amount : ℚ)
    (userId : String) (cache : Option CacheEntry) (now : Nat)
    (fetch : FetchOutcome) :
    (∀ (persist : Except String Unit) (p : ConversionResult),
        (convertCurrency frm toCur amount userId cache now fetch persist).result = .ok p →
          persist = .ok ()) ∧
    (∀ (m : String) (p : ConversionResult),
        (convertCurrency frm toCur amount userId cache now fetch (.ok ())).result = .ok p →
          (convertCurrency frm toCur amount userId cache now fetch (.error m)).result
              = .error m ∧
          (convertCurrency frm toCur amount userId cache now fetch (.error m)).persists
              ≠ []) := by
  rcases hge : getExchangeRates cache now fetch with ⟨res, c1, n⟩
  constructor
  · intro persist p hp
    cases persist with
    | ok u => rfl
    | error m =>
        exfalso
        cases res <;> simp only [convertCurrency, hge] at hp <;>
          split at hp <;> try split at hp
        all_goals try split at hp
        all_goals simp at hp
  · intro m p hp
    cases res <;> simp only [convertCurrency, hge] at hp ⊢ <;>
      split at hp <;> try split at hp
    all_goals try split at hp
    all_goals simp_all

/-- Witness for C7: with rates `{USD: "1", EUR: "2"}` and a failing
persistence collaborator, the conversion fails with the persistence error
even though the computation succeeded, and the persistence request was
issued. -/
theorem persistenceFailure_propagates_witness :
    (convertCurrency "USD" "EUR" 100 "u1" none 0
        (.ok [("USD", "1"), ("EUR", "2")]) (.error "db down")).result
        = .error "db down" ∧
    (convertCurrency "USD" "EUR" 100 "u1" none 0
        (.ok [("USD", "1"), ("EUR", "2")]) (.error "db down")).persists ≠ [] :=
  (persistenceFailure_propagates "USD" "EUR" 100 "u1" none 0
      (.ok [("USD", "1"), ("EUR", "2")])).2 "db down"
    ⟨"USD", "EUR", 100, .num 200, .num 2⟩ (by with_unfolding_all rfl)

/-! ## C4: cache expiry semantics -/

/-- Counterexample to C4: an entry fetched and stored at time 0 with the
5-minute TTL would, per the claim, never be served at or after time
300000; but after an intermediate read at 200000 (which resets the
entry's age, `updateAgeOnGet`), a read at 400000 is still served — so
serving is not equivalent to being strictly before the store-time expiry,
and reading does extend validity. -/
theorem cache_fixedExpiry_counterexample :
    (getExchangeRates (some ⟨[("USD", "1")], 0, EXCHANGE_RATES_CACHE_TTL⟩)
        200000 .fail).result = .ok [("USD", "1")] ∧
    (getExchangeRates
        (getExchangeRates (some ⟨[("USD", "1")], 0, EXCHANGE_RATES_CACHE_TTL⟩)
          200000 .fail).cache 400000 .fail).result = .ok [("USD", "1")] ∧
    ¬(400000 < 0 + EXCHANGE_RATES_CACHE_TTL) :=
  ⟨rfl, rfl, by decide⟩

/-- C4 amended: a cached rate set is served by a cache read iff at most
TTL milliseconds have elapsed since the entry's age was last set (the
boundary instant is still served), where the age is set when the entry is
stored and reset to the read time by every successful read
(`updateAgeOnGet: true`) — so reading extends the entry's validity; a
read past the TTL misses and drops the entry. -/
theorem cache_readExtendsValidity (e : CacheEntry) (now : Nat) :
    (now - e.start ≤ e.ttl →
        cacheGet (some e) now = (some e.value, some ⟨e.value, now, e.ttl⟩)) ∧
    (e.ttl < now - e.start → cacheGet (some e) now = (none, none)) := by
  refine ⟨fun h => ?_, fun h => ?_⟩
  · simp [cacheGet, Nat.not_lt.mpr h]
  · simp [cacheGet, h]

/-- Witness for C4's amended statement: a live entry is served with its
age reset; a stale entry misses and is dropped. -/
theorem cache_readExtendsValidity_witness :
    cacheGet (some ⟨[("USD", "1")], 0, 300000⟩) 200000
        = (some [("USD", "1")], some ⟨[("USD", "1")], 200000, 300000⟩) ∧
    cacheGet (some ⟨[("USD", "1")], 0, 300000⟩) 400000 = (none, none) :=
  ⟨(cache_readExtendsValidity ⟨[("USD", "1")], 0, 300000⟩ 200000).1 (by decide),
   (cache_readExtendsValidity ⟨[("USD", "1")], 0, 300000⟩ 400000).2 (by decide)⟩

/-! ## C5: failed fetches store nothing -/

/-- Counterexample to C5: with a prior cache holding an (expired) entry,
a call whose fetch fails does not leave the cache exactly in its prior
state — the miss read drops the expired entry, so the cache afterwards is
empty while the prior state was not. -/
theorem fetchFail_cacheState_counterexample :
    (getExchangeRates (some ⟨[("USD", "1")], 0, EXCHANGE_RATES_CACHE_TTL⟩)
        400000 .fail).result = .error "Failed to fetch exchange rates" ∧
    (getExchangeRates (some ⟨[("USD", "1")], 0, EXCHANGE_RATES_CACHE_TTL⟩)
        400000 .fail).cache = none ∧
    some (⟨[("USD", "1")], 0, EXCHANGE_RATES_CACHE_TTL⟩ : CacheEntry) ≠ none :=
  ⟨rfl, rfl, by simp⟩

/-- C5 amended: whenever the cache read misses and the upstream fetch
fails, `getExchangeRates` fails with `Failed to fetch exchange rates`
after exactly one fetch, no rate set is returned, and nothing is stored:
the cache afterwards equals the prior state except that a prior entry
that was already expired has been dropped by the miss read. -/
theorem fetchFail_noStore (c : Option CacheEntry) (now : Nat)
    (hmiss : (cacheGet c now).1 = none) :
    (getExchangeRates c now .fail).result = .error "Failed to fetch exchange rates" ∧
    (getExchangeRates c now .fail).fetches = 1 ∧
    ((getExchangeRates c now .fail).cache = c ∨
      ∃ e, c = some e ∧ e.ttl < now - e.start ∧
        (getExchangeRates c now .fail).cache = none) := by
  cases c with
  | none => exact ⟨rfl, rfl, Or.inl rfl⟩
  | some e =>
      by_cases h : e.ttl < now - e.start
      · refine ⟨?_, ?_, Or.inr ⟨e, rfl, h, ?_⟩⟩ <;>
          simp [getExchangeRates, cacheGet, h]
      · exfalso
        simp [cacheGet, h] at hmiss

/-- Witness for C5's amended statement on an empty prior cache. -/
theorem fetchFail_noStore_witness :
    (getExchangeRates none 0 .fail).result = .error "Failed to fetch exchange rates" ∧
    (getExchangeRates none 0 .fail).fetches = 1 ∧
    ((getExchangeRates none 0 .fail).cache = none ∨
      ∃ e, (none : Option CacheEntry) = some e ∧ e.ttl < 0 - e.start ∧
        (getExchangeRates none 0 .fail).cache = none) :=
  fetchFail_noStore none 0 rfl

/-! ## C8: cached calls are idempotent within the TTL -/

lemma getExchangeRates_hit (r : List (String × String)) (start ttl now : Nat)
    (f : FetchOutcome) (h : now - start ≤ ttl) :
    getExchangeRates (some ⟨r, start, ttl⟩) now f = ⟨.ok r, some ⟨r, now, ttl⟩, 0⟩ := by
  simp [getExchangeRates, cacheGet, Nat.not_lt.mpr h]

lemma getExchangeRates_ok_cache (c0 : Option CacheEntry) (t : Nat)
    (f : FetchOutcome) (r : List (String × String))
    (hwf : ∀ e : CacheEntry, c0 = some e → e.ttl = EXCHANGE_RATES_CACHE_TTL)
    (h : (getExchangeRates c0 t f).result = .ok r) :
    (getExchangeRates c0 t f).cache = some ⟨r, t, EXCHANGE_RATES_CACHE_TTL⟩ := by
  cases c0 with
  | none =>
      cases f with
      | fail => simp [getExchangeRates, cacheGet] at h
      | ok raw => simp_all [getExchangeRates, cacheGet, cacheSet]
  | some e =>
      obtain ⟨v, st, tt⟩ := e
      have ht : tt = EXCHANGE_RATES_CACHE_TTL := hwf ⟨v, st, tt⟩ rfl
      subst ht
      by_cases hs : EXCHANGE_RATES_CACHE_TTL < t - st
      · cases f with
        | fail => simp [getExchangeRates, cacheGet, hs] at h
        | ok raw => simp_all [getExchangeRates, cacheGet, cacheSet, hs]
      · rw [getExchangeRates_hit v st EXCHANGE_RATES_CACHE_TTL t f (Nat.not_lt.mp hs)] at h ⊢
        simp at h
        simp [h]

/-- C8: if a `getExchangeRates` call at time `t1` succeeds with rate
mapping `r` (the cache holding only entries with the fixed TTL), then any
second call at a time `t2` within the 5-minute TTL of the first returns
the identical mapping `r` and performs zero upstream fetches, whatever
the upstream would do. -/
theorem cache_idempotent (c0 : Option CacheEntry) (t1 t2 : Nat)
    (f1 f2 : FetchOutcome) (r : List (String × String))
    (hwf : ∀ e : CacheEntry, c0 = some e → e.ttl = EXCHANGE_RATES_CACHE_TTL)
    (h1 : (getExchangeRates c0 t1 f1).result = .ok r)
    (h2 : t2 - t1 ≤ EXCHANGE_RATES_CACHE_TTL) :
    (getExchangeRates (getExchangeRates c0 t1 f1).cache t2 f2).result = .ok r ∧
    (getExchangeRates (getExchangeRates c0 t1 f1).cache t2 f2).fetches = 0 := by
  rw [getExchangeRates_ok_cache c0 t1 f1 r hwf h1,
    getExchangeRates_hit r t1 EXCHANGE_RATES_CACHE_TTL t2 f2 h2]
  exact ⟨rfl, rfl⟩

/-- Witness for C8: a fetch at time 0 filling the cache, then a call at
time 100000 served entirely from the cache even though the upstream would
fail. -/
theorem cache_idempotent_witness :
    (getExchangeRates (getExchangeRates none 0 (.ok [("USD", "1")])).cache
        100000 .fail).result = .ok [("USD", "1")] ∧
    (getExchangeRates (getExchangeRates none 0 (.ok [("USD", "1")])).cache
        100000 .fail).fetches = 0 :=
  cache_idempotent none 0 100000 (.ok [("USD", "1")]) .fail [("USD", "1")]
    (fun e h => by cases h) (by rfl) (by decide)

/-! ## C10: malformed authorization collapses to the anonymous identity -/

lemma jsStartsWith_exists {s p : String} (h : jsStartsWith s p = true) :
    ∃ t : String, s = p ++ t := by
  have h1 : s.data.take p.data.length = p.data := of_decide_eq_true h
  refine ⟨⟨s.data.drop p.data.length⟩, String.ext ?_⟩
  show s.data = p.data ++ s.data.drop p.data.length
  have h2 := List.take_append_drop p.data.length s.data
  rw [h1] at h2
  exact h2.symm

lemma append_right_empty {a t : String} (h : a = a ++ t) : t = "" := by
  apply String.ext
  have h2 := congrArg String.data h
  rw [String.data_append] at h2
  have h3 := congrArg List.length h2
  rw [List.length_append] at h3
  exact List.eq_nil_of_length_eq_zero (by omega)

/-- C10: any request whose authorization header is absent, not a string,
or not of the form `Bearer <token>` with a non-empty token is keyed as
the constant identity `anonymous` by the limiters' key generator, so all
such requests share the single `anonymous` quota window. -/
theorem anonymous_keyGenerator (h : Option HeaderValue)
    (hm : ¬ ∃ tok : String, tok ≠ "" ∧ h = some (.str ("Bearer " ++ tok))) :
    keyGenerator h = "anonymous" := by
  match h with
  | none => rfl
  | some (.strs l) => rfl
  | some (.str s) =>
      by_cases hb : jsStartsWith s "Bearer " = true
      · obtain ⟨t, rfl⟩ := jsStartsWith_exists hb
        have ht : t = "" := by
          by_contra hne
          exact hm ⟨t, hne, rfl⟩
        subst ht
        rfl
      · simp [keyGenerator, extractUserId, hb]

/-- Witness for C10 at three concrete headers: absent, a non-Bearer
string, and `Bearer ` with an empty token. -/
theorem anonymous_keyGenerator_witness :
    keyGenerator none = "anonymous" ∧
    keyGenerator (some (.str "Basic dXNlcg==")) = "anonymous" ∧
    keyGenerator (some (.str "Bearer ")) = "anonymous" :=
  ⟨anonymous_keyGenerator none (by simp),
   anonymous_keyGenerator (some (.str "Basic dXNlcg==")) (by
      rintro ⟨tok, ht, he⟩
      have h1 : "Basic dXNlcg==" = "Bearer " ++ tok := by
        injection he with h2
        injection h2
      have h3 := congrArg String.data h1
      rw [String.data_append] at h3
      simp at h3),
   anonymous_keyGenerator (some (.str "Bearer ")) (by
      rintro ⟨tok, ht, he⟩
      have h1 : "Bearer " = "Bearer " ++ tok := by
        injection he with h2
        injection h2
      exact ht (append_right_empty h1))⟩

/-! ## Quota-limiter lemmas -/

lemma storeGet_storeSet (st : Store) (k : String) (v : Client) :
    storeGet (storeSet st k v) k = some v := by
  induction st with
  | nil => simp [storeSet, storeGet]
  | cons hd tl ih =>
      obtain ⟨k1, v1⟩ := hd
      by_cases hk : k1 = k <;> simp [storeSet, storeGet, hk, ih]

lemma weekdaySkip_of_weekend : ∀ d : Fin 7, (d.val = 0 ∨ d.val = 6) → weekdaySkip d = true := by
  decide

lemma weekdaySkip_of_weekday : ∀ d : Fin 7, ¬(d.val = 0 ∨ d.val = 6) → weekdaySkip d = false := by
  decide

lemma weekendSkip_of_weekday : ∀ d : Fin 7, weekdaySkip d = false → weekendSkip d = true := by
  decide

lemma weekendSkip_of_weekend : ∀ d : Fin 7, weekdaySkip d = true → weekendSkip d = false := by
  decide

lemma increment_fresh {st : Store} {k : String} {now w : Nat}
    (h : storeGet st k = none) :
    increment st k now w = (⟨1, now + w⟩, storeSet st k ⟨1, now + w⟩) := by
  simp [increment, h]

lemma increment_live {st : Store} {k : String} {now w c r : Nat}
    (h : storeGet st k = some ⟨c, r⟩) (hr : now < r) :
    increment st k now w = (⟨c + 1, r⟩, storeSet st k ⟨c + 1, r⟩) := by
  simp [increment, h, Nat.not_le.mpr hr]

lemma appAdmit_weekday_step (d : Fin 7) (hd : weekdaySkip d = false)
    (wd we : Store) (key : String) (t : Nat) (cl : Client) (wd1 : Store)
    (hinc : increment wd key t windowMs = (cl, wd1)) :
    appAdmit ⟨wd, we⟩ t d key = (decide (cl.totalHits ≤ 100), ⟨wd1, we⟩) := by
  have hwe := weekendSkip_of_weekday d hd
  by_cases hc : cl.totalHits ≤ 100 <;>
    simp [appAdmit, hd, hwe, hinc, hc]

lemma appAdmit_weekend_step (d : Fin 7) (hd : weekdaySkip d = true)
    (wd we : Store) (key : String) (t : Nat) (cl : Client) (we1 : Store)
    (hinc : increment we key t windowMs = (cl, we1)) :
    appAdmit ⟨wd, we⟩ t d key = (decide (cl.totalHits ≤ 200), ⟨wd, we1⟩) := by
  have hwe := weekendSkip_of_weekend d hd
  simp [appAdmit, hd, hwe, hinc]

lemma admitSeq_weekday_run (d : Fin 7) (hd : weekdaySkip d = false) (key : String)
    (ts : List Nat) :
    ∀ (wd we : Store) (c r : Nat),
      storeGet wd key = some ⟨c, r⟩ → (∀ t ∈ ts, t < r) →
      (admitSeq ⟨wd, we⟩ key (ts.map (fun t => (t, d)))).1 =
        (List.range' (c + 1) ts.length).map (fun j => decide (j ≤ 100)) := by
  induction ts with
  | nil => intro wd we c r hget hts; rfl
  | cons t ts ih =>
      intro wd we c r hget hts
      have htr : t < r := hts t (by simp)
      have hstep := appAdmit_weekday_step d hd wd we key t ⟨c + 1, r⟩
        (storeSet wd key ⟨c + 1, r⟩) (increment_live hget htr)
      have ihh := ih (storeSet wd key ⟨c + 1, r⟩) we (c + 1) r
        (storeGet_storeSet wd key ⟨c + 1, r⟩) (fun t2 ht2 => hts t2 (by simp [ht2]))
      simp only [List.map_cons, admitSeq, hstep, ihh]
      rfl

lemma admitSeq_weekend_run (d : Fin 7) (hd : weekdaySkip d = true) (key : String)
    (ts : List Nat) :
    ∀ (wd we : Store) (c r : Nat),
      storeGet we key = some ⟨c, r⟩ → (∀ t ∈ ts, t < r) →
      (admitSeq ⟨wd, we⟩ key (ts.map (fun t => (t, d)))).1 =
        (List.range' (c + 1) ts.length).map (fun j => decide (j ≤ 200)) := by
  induction ts with
  | nil => intro wd we c r hget hts; rfl
  | cons t ts ih =>
      intro wd we c r hget hts
      have htr : t < r := hts t (by simp)
      have hstep := appAdmit_weekend_step d hd wd we key t ⟨c + 1, r⟩
        (storeSet we key ⟨c + 1, r⟩) (increment_live hget htr)
      have ihh := ih wd (storeSet we key ⟨c + 1, r⟩) (c + 1) r
        (storeGet_storeSet we key ⟨c + 1, r⟩) (fun t2 ht2 => hts t2 (by simp [ht2]))
      simp only [List.map_cons, admitSeq, hstep, ihh]
      rfl

/-! ## C2: quota boundaries -/

set_option maxRecDepth 100000 in
/-- C2: for a fresh identity whose requests all fall on one day-of-week
`d` and within 24 hours of the first request, the first 100 admission
checks are allowed and the 101st is denied when `d` is a weekday, and the
first 200 are allowed and the 201st denied when `d` is a weekend day
(Sunday 0 or Saturday 6). -/
theorem quota_boundary (d : Fin 7) (key : String) (t0 : Nat) (ts : List Nat)
    (hts : ∀ t ∈ ts, t < t0 + windowMs)
    (hlen : ts.length = if d.val = 0 ∨ d.val = 6 then 200 else 100) :
    (admitSeq freshApp key ((t0 :: ts).map (fun t => (t, d)))).1 =
      List.replicate (if d.val = 0 ∨ d.val = 6 then 200 else 100) true ++ [false] := by
  by_cases hw : d.val = 0 ∨ d.val = 6
  · rw [if_pos hw] at hlen
    rw [if_pos hw]
    have hd := weekdaySkip_of_weekend d hw
    have hstep := appAdmit_weekend_step d hd [] [] key t0 ⟨1, t0 + windowMs⟩
      (storeSet [] key ⟨1, t0 + windowMs⟩) (increment_fresh rfl)
    have hrun := admitSeq_weekend_run d hd key ts []
      (storeSet [] key ⟨1, t0 + windowMs⟩) 1 (t0 + windowMs)
      (storeGet_storeSet [] key ⟨1, t0 + windowMs⟩) hts
    simp only [List.map_cons, admitSeq, freshApp, hstep, hrun, hlen]
    rfl
  · rw [if_neg hw] at hlen
    rw [if_neg hw]
    have hd := weekdaySkip_of_weekday d hw
    have hstep := appAdmit_weekday_step d hd [] [] key t0 ⟨1, t0 + windowMs⟩
      (storeSet [] key ⟨1, t0 + windowMs⟩) (increment_fresh rfl)
    have hrun := admitSeq_weekday_run d hd key ts
      (storeSet [] key ⟨1, t0 + windowMs⟩) [] 1 (t0 + windowMs)
      (storeGet_storeSet [] key ⟨1, t0 + windowMs⟩) hts
    simp only [List.map_cons, admitSeq, freshApp, hstep, hrun, hlen]
    rfl

set_option maxRecDepth 100000 in
/-- Witness for C2: a fresh identity on a Monday (101 checks) and on a
Saturday (201 checks), all within one 24-hour window. -/
theorem quota_boundary_witness :
    (admitSeq freshApp "u1"
        (((0 : Nat) :: List.replicate 100 0).map (fun t => (t, (1 : Fin 7))))).1 =
      List.replicate 100 true ++ [false] ∧
    (admitSeq freshApp "u1"
        (((0 : Nat) :: List.replicate 200 0).map (fun t => (t, (6 : Fin 7))))).1 =
      List.replicate 200 true ++ [false] :=
  ⟨quota_boundary 1 "u1" 0 (List.replicate 100 0)
      (by intro t ht; rw [List.eq_of_mem_replicate ht]; decide) (by decide),
   quota_boundary 6 "u1" 0 (List.replicate 200 0)
      (by intro t ht; rw [List.eq_of_mem_replicate ht]; decide) (by decide)⟩

/-! ## C3: one window per identity vs. two limiter stores -/

set_option maxRecDepth 200000 in
/-- Counterexample to C3: the claim's single-window tracker (`specAdmit`,
which carries one accumulated count across a weekend-to-weekday boundary)
denies the request after 101 Sunday admissions followed by one Monday
request in the same 24-hour window (count 101 is at or above the weekday
cap 100), but the code admits it: the weekday limiter owns a separate
store whose count for this identity is still 0 — there is no single
accumulated count per identity. -/
theorem quota_singleWindow_counterexample :
    (admitSeq freshApp "u1"
        (List.replicate 101 ((86300000 : Nat), (0 : Fin 7))
          ++ [(86500000, (1 : Fin 7))])).1.getLast? = some true ∧
    (specAdmitSeq none
        (List.replicate 101 ((86300000 : Nat), (0 : Fin 7))
          ++ [(86500000, (1 : Fin 7))])).1.getLast? = some false :=
  ⟨rfl, rfl⟩

/-- C3 amended: each identity has two quota windows, one per limiter; at
each admission the day-of-week of the admission moment selects which
limiter counts (weekend 200 against the weekend store, weekday 100
against the weekday store) while the other limiter's store is untouched —
so across a weekday/weekend boundary the check switches to the other
limiter's independent count instead of re-checking one accumulated count
against the new cap. -/
theorem quota_twoWindows (st : AppState) (now : Nat) (d : Fin 7) (key : String) :
    ((d.val = 0 ∨ d.val = 6) →
        appAdmit st now d key =
          (decide ((increment st.weekendStore key now windowMs).1.totalHits ≤ 200),
            ⟨st.weekdayStore, (increment st.weekendStore key now windowMs).2⟩)) ∧
    (¬(d.val = 0 ∨ d.val = 6) →
        appAdmit st now d key =
          (decide ((increment st.weekdayStore key now windowMs).1.totalHits ≤ 100),
            ⟨(increment st.weekdayStore key now windowMs).2, st.weekendStore⟩)) := by
  obtain ⟨wd, we⟩ := st
  constructor
  · intro hw
    exact appAdmit_weekend_step d (weekdaySkip_of_weekend d hw) wd we key now _ _ rfl
  · intro hw
    exact appAdmit_weekday_step d (weekdaySkip_of_weekday d hw) wd we key now _ _ rfl

/-- Witness for C3's amended statement at a Saturday and a Monday
admission from the fresh state. -/
theorem quota_twoWindows_witness :
    appAdmit freshApp 0 6 "u1" =
      (decide ((increment [] "u1" 0 windowMs).1.totalHits ≤ 200),
        ⟨[], (increment [] "u1" 0 windowMs).2⟩) ∧
    appAdmit freshApp 0 1 "u1" =
      (decide ((increment [] "u1" 0 windowMs).1.totalHits ≤ 100),
        ⟨(increment [] "u1" 0 windowMs).2, []⟩) :=
  ⟨(quota_twoWindows freshApp 0 6 "u1").1 (by decide),
   (quota_twoWindows freshApp 0 1 "u1").2 (by decide)⟩
